import Mathlib

/-!
# Verification of the fibratus kernel-event pipeline core

Shallow embedding of the event-stream consumer, the processor chain, the
handle processor, the deadlock-safe handle-name resolver and the process
snapshotter, translated from the Go sources:

* `pkg/kstream/kstreamc_windows.go` (consumer: `processEvent`,
  `publishEvent`, `isEventDropped`)
* `pkg/kstream/processors` (`chain.ProcessEvent`, `chain.Close`,
  `handleProcessor.processEvent`, `psProcessor`)
* `pkg/ps/snapshotter_windows.go` (`Write`, `WriteFromKcap`, `Remove`,
  `Find`, `Size`, `gcDeadProcesses`)
* the handle package's `GetHandleWithTimeout`

OS calls (OpenProcess, NtQueryObject, event waits, ...) are modelled as
oracle parameters; Go maps become association lists keyed by the map key;
pointer-linked parent records become weak references by PID, following the
design note that the back-reference is "an index into the snapshotter
keyed by PID".
-/

deriving instance DecidableEq for Except

namespace Fibratus

/-- Kernel event types relevant to the core (`pkg/kevent/ktypes`). -/
inductive Ktype where
  | CreateProcess | TerminateProcess | ProcessRundown
  | CreateThread | TerminateThread | ThreadRundown
  | LoadImage | ImageRundown
  | CreateHandle | CloseHandle | HandleRundown
  | OpenProcess | OpenThread
  | Other (tag : Nat)
  deriving DecidableEq, Repr

/-- Event categories (`pkg/kevent/ktypes`); only the handle category is
    dispatched on by the embedded code. -/
inductive Category where
  | Handle | Process | Thread | Image | Other (tag : Nat)
  deriving DecidableEq, Repr

/-- Tagged union of event parameter values (`pkg/kevent/kparams`): unsigned
    integers of several widths, strings, file paths, timestamps, SIDs.
    Machine integers are carried as `Nat`; no claim exercises overflow. -/
inductive Kval where
  | u8 (n : Nat) | u16 (n : Nat) | u32 (n : Nat) | u64 (n : Nat)
  | str (s : String) | path (s : String) | time (t : Nat) | sid (s : String)
  deriving DecidableEq, Repr

/-- Render a parameter value as a string, as `GetParamAsString` does. -/
def Kval.render : Kval → String
  | .u8 n => toString n | .u16 n => toString n
  | .u32 n => toString n | .u64 n => toString n
  | .str s => s | .path s => s | .time t => toString t | .sid s => s

/-- The parameter map of an event: fibratus keeps `Kparams` as a Go map
    keyed by the parameter name (identifiers are unique within an event),
    embedded as an association list whose insert replaces the key. -/
def Kparams := List (String × Kval)

instance : DecidableEq Kparams := by unfold Kparams; infer_instance

instance : Repr Kparams := by unfold Kparams; infer_instance

namespace Kparams

/-- Look up a parameter by name. -/
def find (ps : Kparams) (k : String) : Option Kval :=
  List.lookup k ps

/-- `Kparams.Append`: add a parameter, replacing any previous one with the
    same name (Go map assignment). -/
def append (ps : Kparams) (k : String) (v : Kval) : Kparams :=
  (k, v) :: (List.filter (fun p => p.1 ≠ k) ps : List (String × Kval))

/-- `Kparams.Remove`: delete a parameter by name. -/
def remove (ps : Kparams) (k : String) : Kparams :=
  (List.filter (fun p => p.1 ≠ k) ps : List (String × Kval))

/-- `Kparams.SetValue`: overwrite the value of an existing parameter;
    an absent parameter is an error. -/
def setValue (ps : Kparams) (k : String) (v : Kval) : Except String Kparams :=
  match ps.find k with
  | some _ => .ok (ps.append k v)
  | none => .error ("couldn't find " ++ k ++ " param")

/-- `GetUint32` and friends: a present parameter of the wrong width is an
    error, mirrored for each width used by the embedded code. -/
def getUint32 (ps : Kparams) (k : String) : Except String Nat :=
  match ps.find k with
  | some (.u32 n) => .ok n
  | some _ => .error ("expected uint32 for " ++ k)
  | none => .error ("couldn't find " ++ k ++ " param")

def getUint16 (ps : Kparams) (k : String) : Except String Nat :=
  match ps.find k with
  | some (.u16 n) => .ok n
  | some _ => .error ("expected uint16 for " ++ k)
  | none => .error ("couldn't find " ++ k ++ " param")

def getUint64 (ps : Kparams) (k : String) : Except String Nat :=
  match ps.find k with
  | some (.u64 n) => .ok n
  | some _ => .error ("expected uint64 for " ++ k)
  | none => .error ("couldn't find " ++ k ++ " param")

def getString (ps : Kparams) (k : String) : Except String String :=
  match ps.find k with
  | some (.str s) => .ok s
  | some (.path s) => .ok s
  | some _ => .error ("expected string for " ++ k)
  | none => .error ("couldn't find " ++ k ++ " param")

/-- `GetPid`: the producing process id travels in the `pid` parameter. -/
def getPid (ps : Kparams) : Except String Nat := ps.getUint32 "pid"

/-- `GetPpid`: the parent process id travels in the `ppid` parameter. -/
def getPpid (ps : Kparams) : Except String Nat := ps.getUint32 "ppid"

/-- `MustGetUint32` never fails in the modelled flows; an absent or
    ill-typed parameter yields 0 where Go would panic. -/
def mustGetUint32 (ps : Kparams) (k : String) : Nat :=
  match ps.find k with
  | some (.u32 n) => n
  | _ => 0

/-- `GetParamAsString`: render the parameter, empty when missing. -/
def getParamAsString (ps : Kparams) (k : String) : String :=
  match ps.find k with
  | some v => v.render
  | none => ""

end Kparams

/-- A process record (`pkg/ps/types.PS`): identity, image and session data
    plus a weak parent reference. The parent back-reference is embedded as
    an optional PID into the snapshotter index (design note §9: "implement
    as an index into the snapshotter keyed by PID"). -/
structure PS where
  pid : Nat
  ppid : Nat
  name : String
  cmdline : String
  exe : String
  sid : String
  sessionID : Nat
  parent : Option Nat := none
  deriving DecidableEq, Repr

/-- `pstypes.NewProc`: a fresh record carrying the identity fields, with no
    parent linked yet. -/
def PS.newProc (pid ppid : Nat) (name cmdline exe sid : String)
    (sessionID : Nat) : PS :=
  { pid := pid, ppid := ppid, name := name, cmdline := cmdline,
    exe := exe, sid := sid, sessionID := sessionID, parent := none }

/-- A decoded kernel event (`pkg/kevent.Kevent`). The classification flags
    `IsState`, `IsRundown`, `IsRundownProcessed` are carried as fields.
    Modelled from the spec: the spec's data model (§3) lists them as
    "classification flags derivable from the type"; the deriving code lives
    in `pkg/kevent`, outside the covered sources, so the embedding
    quantifies over every possible derivation. -/
structure Kevent where
  seq : Nat
  pid : Nat
  tid : Nat := 0
  etype : Ktype
  category : Category
  kparams : Kparams
  ps : Option PS := none
  stateFlag : Bool := false
  rundownFlag : Bool := false
  rundownProcessed : Bool := false
  deriving DecidableEq, Repr

/-- A plain event with no parameters, used to exercise the models on
    concrete inputs. -/
def defaultKevent : Kevent :=
  { seq := 0, pid := 1, etype := .Other 0, category := .Other 0,
    kparams := ([] : List (String × Kval)) }

/-- Replace the process-state reference attached to an event
    (`e.PS = ...`). -/
def setPS (e : Kevent) (p : Option PS) : Kevent := { e with ps := p }

/-- Replace an event's parameter map (the effect of `Kparams.SetValue` /
    `Kparams.Append` on the owning event). -/
def setKparams (e : Kevent) (ps : Kparams) : Kevent := { e with kparams := ps }

/-- `Kevent.IsCreateProcess`, derived from the type tag. -/
def Kevent.isCreateProcess (e : Kevent) : Bool := e.etype = Ktype.CreateProcess

/-- `Kevent.IsTerminateProcess`, derived from the type tag. -/
def Kevent.isTerminateProcess (e : Kevent) : Bool := e.etype = Ktype.TerminateProcess

/-- `Kevent.IsTerminateThread`, derived from the type tag. -/
def Kevent.isTerminateThread (e : Kevent) : Bool := e.etype = Ktype.TerminateThread

/-! ## Processor chain (`pkg/kstream/processors/chain` and friends) -/

/-- Errors a processor can return: the cancel-upstream sentinel
    (`kerrors.ErrCancelUpstreamKevent`) or an ordinary failure message. -/
inductive PErr where
  | cancel
  | fail (msg : String)
  deriving DecidableEq, Repr

/-- A registered processor: a name and the `ProcessEvent` behaviour,
    returning the (possibly replaced) event, the proceed flag and an
    optional error. -/
structure Processor where
  name : String
  run : Kevent → Kevent × Bool × Option PErr

/-- The result error of a chain walk: the propagated cancel sentinel or
    the collected non-cancel failures merged (`multierror.Wrap`), each
    tagged with the processor name as `fmt.Errorf` does. -/
inductive ChainErr where
  | cancel
  | merged (errs : List (String × String))
  deriving DecidableEq, Repr

/-- The loop body of `chain.ProcessEvent`: walk the processors, handing
    each one the original event; collect non-cancel errors and continue;
    return at once on the cancel sentinel; stop on `proceed=false`. The
    accumulated `errs` and the running `output` mirror the Go locals. -/
def chainGo (kevt : Kevent) : List Processor → List (String × String) →
    Option Kevent → Option Kevent × Option ChainErr
  | [], errs, output =>
    (output, if errs = [] then none else some (.merged errs))
  | p :: rest, errs, _ =>
    match p.run kevt with
    | (out, _, some .cancel) => (some out, some .cancel)
    | (out, _, some (.fail m)) => chainGo kevt rest (errs ++ [(p.name, m)]) (some out)
    | (out, next, none) =>
      if next then chainGo kevt rest errs (some out)
      else (some out, if errs = [] then none else some (.merged errs))

/-- `chain.ProcessEvent`. -/
def chainProcessEvent (c : List Processor) (kevt : Kevent) :
    Option Kevent × Option ChainErr :=
  chainGo kevt c [] none

/-- `chain.Close`: close each processor in registration order (the closes
    return nothing) and return no error. The first component records the
    order in which the processors' `Close` methods are invoked. -/
def chainClose : List Processor → List String × Option ChainErr
  | [] => ([], none)
  | p :: rest => ((chainClose rest).1.cons p.name, none)

/-- The non-cancel errors a full walk of the chain collects, each with the
    name of the failing processor. -/
def chainCollect (kevt : Kevent) (c : List Processor) :
    List (String × String) :=
  c.filterMap (fun p =>
    match (p.run kevt).2.2 with
    | some (.fail m) => some (p.name, m)
    | _ => none)

/-- The output of a full walk: the last processor's returned event, or
    nothing for the empty chain. -/
def chainLastOut (kevt : Kevent) (c : List Processor) : Option Kevent :=
  (c.getLast?).map (fun p => (p.run kevt).1)

/-- `multierror.Wrap` over the collected errors: no error when none were
    collected. -/
def mergeErrs (errs : List (String × String)) : Option ChainErr :=
  if errs = [] then none else some (.merged errs)

/-! ## Trace consumer publish path (`pkg/kstream/kstreamc_windows.go`) -/

/-- The consumer configuration the publish path consults: the agent's own
    PID (`e.CurrentPid()` compares the producing PID against it), the
    capture flag, the image / event-type exclusion predicates from the
    configuration, the optional expression filter, the snapshotter lookup
    and whether a per-event callback bypasses the output channel. -/
structure PublishCfg where
  agentPid : Nat
  capture : Bool
  excludeImage : Option PS → Bool
  excludeKevent : Kevent → Bool
  filter : Option (Kevent → Bool)
  find : Nat → Option PS
  useCallback : Bool := false

/-- The mutable consumer state the publish path touches: the sequencer
    counter, the delivered events (output channel or callback invocations,
    in order) and the `kstream.kevents.enqueued`, `kstream.excluded.procs`
    and `kstream.excluded.kevents` counters. -/
structure PublishState where
  sequencer : Nat
  delivered : List Kevent
  keventsEnqueued : Nat
  excludedProcs : Nat
  excludedKevents : Nat
  deriving DecidableEq, Repr

/-- Why `isEventDropped` discarded an event, one constructor per branch of
    the if-chain, in source order. -/
inductive DropReason where
  | state | rundownDup | currentPid | excludedKevent | filtered
  deriving DecidableEq, Repr

/-- `isEventDropped`: state events are dropped unless capture is active;
    duplicate rundowns are dropped; anything produced by the agent process
    itself is dropped; excluded event types are dropped (incrementing the
    excluded-kevents counter, recorded via the returned reason); finally
    the expression filter decides. -/
def isEventDropped (cfg : PublishCfg) (e : Kevent) : Option DropReason :=
  if e.stateFlag && !cfg.capture then some .state
  else if e.rundownFlag && e.rundownProcessed then some .rundownDup
  else if e.pid = cfg.agentPid then some .currentPid
  else if cfg.excludeKevent e then some .excludedKevent
  else
    match cfg.filter with
    | some f => if f e then none else some .filtered
    | none => none

/-- The record-attachment step of `publishEvent`: the snapshotter's answer
    is attached only when the event carries no process state yet (capture
    events keep theirs). -/
def attachPS (cfg : PublishCfg) (e : Kevent) : Kevent :=
  if e.ps = none then { e with ps := cfg.find e.pid } else e

/-- `publishEvent`: look the producing process up in the snapshotter and
    drop the event when its image is excluded; otherwise attach the record
    when none is present, consult `isEventDropped`, increment the sequencer
    for surviving non-state events, and deliver to the callback (no
    enqueued counter) or to the output channel (enqueued counter +1). -/
def publishEvent (cfg : PublishCfg) (st : PublishState) (e : Kevent) :
    PublishState :=
  if cfg.excludeImage (cfg.find e.pid) then
    { st with excludedProcs := st.excludedProcs + 1 }
  else
    let e := attachPS cfg e
    match isEventDropped cfg e with
    | some .excludedKevent => { st with excludedKevents := st.excludedKevents + 1 }
    | some _ => st
    | none =>
      let st := if !e.stateFlag then { st with sequencer := st.sequencer + 1 } else st
      if cfg.useCallback then
        { st with delivered := st.delivered ++ [e] }
      else
        { st with delivered := st.delivered ++ [e],
                  keventsEnqueued := st.keventsEnqueued + 1 }

/-- A decoded event before sequencing: `processEvent` stamps it with the
    sequencer's current value (`kevent.New(k.sequencer.Get(), evt)`). -/
def stamp (seq : Nat) (e : Kevent) : Kevent := { e with seq := seq }

/-- The consumer state at start-up: sequencer restored to `n`, nothing
    delivered, counters zero. -/
def initState (n : Nat) : PublishState :=
  { sequencer := n, delivered := [], keventsEnqueued := 0,
    excludedProcs := 0, excludedKevents := 0 }

/-- A concrete configuration whose excluded-image set contains the agent's
    own image: the agent runs as PID 7 under the image name
    `fibratus.exe`, which the configuration excludes, and the snapshotter
    resolves PID 7 to that record. -/
def selfExcludeCfg : PublishCfg :=
  { agentPid := 7, capture := false,
    excludeImage := fun p =>
      match p with
      | some r => r.name == "fibratus.exe"
      | none => false,
    excludeKevent := fun _ => false,
    filter := none,
    find := fun pid =>
      if pid = 7 then some (PS.newProc 7 4 "fibratus.exe" "f" "f" "s" 0)
      else none }

/-- A concrete capture-mode configuration that filters nothing. -/
def captureCfg : PublishCfg :=
  { agentPid := 999, capture := true,
    excludeImage := fun _ => false,
    excludeKevent := fun _ => false,
    filter := none,
    find := fun _ => none }

/-- A concrete state event (used for state-management only, dropped
    outside capture mode). -/
def stateEvent : Kevent := { defaultKevent with stateFlag := true }

/-! ## Process snapshotter (`pkg/ps/snapshotter_windows.go`)

The `procs` Go map (`map[uint32]*pstypes.PS`) is embedded as an
association list with unique keys; map assignment replaces the entry for
the key, `delete` removes it. -/

/-- The snapshotter index and the counters the embedded operations touch. -/
structure SnapState where
  procs : List (Nat × PS)
  reaped : Nat := 0
  deriving DecidableEq, Repr

/-- Go map lookup `s.procs[pid]`. -/
def lookupProc (l : List (Nat × PS)) (pid : Nat) : Option PS :=
  List.lookup pid l

/-- Go map assignment `s.procs[pid] = proc`: replace any entry under the
    key. -/
def insertProc (l : List (Nat × PS)) (pid : Nat) (proc : PS) :
    List (Nat × PS) :=
  (pid, proc) :: (List.filter (fun p => p.1 ≠ pid) l : List (Nat × PS))

/-- Go map deletion `delete(s.procs, pid)`. -/
def eraseProc (l : List (Nat × PS)) (pid : Nat) : List (Nat × PS) :=
  (List.filter (fun p => p.1 ≠ pid) l : List (Nat × PS))

/-- `proc.Parent = s.procs[ppid]`: the weak parent reference becomes the
    parent's PID when the index holds it, null otherwise. -/
def linkParent (l : List (Nat × PS)) (proc : PS) (ppid : Nat) : PS :=
  { proc with parent := if (lookupProc l ppid).isSome then some ppid else none }

/-- `snapshotter.Size()`. -/
def snapSize (s : SnapState) : Nat := s.procs.length

/-- `snapshotter.WriteFromKcap`, restricted to the process branches the
    claims exercise (`CreateProcess` / `ProcessRundown`); the thread and
    module branches never insert or remove index keys. A missing embedded
    record returns early; a rundown whose embedded record is its own
    parent is discarded as bogus; an adopted rundown record is stored
    under the event's pid parameter and its parent is then linked; a
    create event stores a fresh record built from the event parameters,
    the session id narrowed by the uint8 conversion (the parent link
    mutates only the embedded record, not the fresh one). -/
def writeFromKcap (s : SnapState) (e : Kevent) : Except String SnapState :=
  match e.etype with
  | .CreateProcess | .ProcessRundown =>
    match e.ps with
    | none => .ok s
    | some proc => do
      let pid ← e.kparams.getPid
      let ppid ← e.kparams.getPpid
      if e.etype = Ktype.ProcessRundown then
        if proc.pid = proc.ppid then
          .ok s
        else
          -- `s.procs[pid] = proc` then `proc.Parent = s.procs[ppid]`:
          -- the stored record and `proc` alias the same object
          let procs1 := insertProc s.procs pid proc
          .ok { s with procs := insertProc procs1 pid (linkParent procs1 proc ppid) }
      else
        let ps := PS.newProc pid ppid
          (e.kparams.getParamAsString "name")
          (e.kparams.getParamAsString "cmdline")
          (e.kparams.getParamAsString "exe")
          (e.kparams.getParamAsString "sid")
          (e.kparams.mustGetUint32 "sess" % 256)
        -- `proc.Parent = s.procs[ppid]` touches the embedded record only;
        -- the index holds the freshly built `ps`
        .ok { s with procs := insertProc s.procs pid ps }
  | _ => .ok s

/-- `snapshotter.Write`: read pid and ppid, initialize the record via
    `initProc`, insert it into the index and link its parent pointer,
    attach the freshest record to the event, and only then surface any
    `initProc` error. `initProc` consults the PE reader, the handle
    snapshotter and the OS, so its outcome — the (possibly partial)
    record together with an optional error — enters as the `ini`
    parameter. Returns the new state, the event with its `PS` field
    adjusted, and the surfaced error. -/
def writeProc (s : SnapState) (e : Kevent) (ini : PS × Option String) :
    Except String (SnapState × Kevent × Option String) := do
  let pid ← e.kparams.getPid
  let ppid ← e.kparams.getPpid
  let (proc, inierr) := ini
  -- `s.procs[pid] = proc` then `proc.Parent = s.procs[ppid]`: the stored
  -- record and the local alias the same object
  let procs1 := insertProc s.procs pid proc
  let linked := linkParent procs1 proc ppid
  let procs2 := insertProc procs1 pid linked
  let e :=
    if e.isCreateProcess then { e with ps := lookupProc procs2 e.pid }
    else { e with ps := some linked }
  .ok ({ s with procs := procs2 }, e, inierr)

/-- The per-record body of the orphaning sweep in `snapshotter.Remove`:
    a record whose parent PID is the deceased loses its parent pointer. -/
def orphan (pid : Nat) (r : PS) : PS :=
  if r.ppid = pid then { r with parent := none } else r

/-- `snapshotter.Remove`: delete the record by the event's pid parameter,
    then null out the parent pointer of every record that referenced the
    deceased. -/
def removeProc (s : SnapState) (e : Kevent) : Except String SnapState := do
  let pid ← e.kparams.getPid
  let procs := eraseProc s.procs pid
  let swept := procs.map (fun p => (p.1, orphan pid p.2))
  .ok { s with procs := swept }

/-- One reaper probe: `OpenProcess(PROCESS_QUERY_LIMITED_INFORMATION)`
    followed by `IsProcessRunning`. `none` means the open failed; `some b`
    means the open succeeded and the OS reported running = `b`. -/
def ReapOracle := Nat → Option Bool

/-- A record survives a sweep iff its open fails (`continue`) or the OS
    still reports the process running. -/
def survivesReap (os : ReapOracle) (pid : Nat) : Bool :=
  match os pid with
  | none => true
  | some running => running

/-- One sweep of `gcDeadProcesses`: probe every indexed PID, delete those
    whose process the OS reports not running, and add the number of
    removed records to the `process.reaped` counter. -/
def gcSweep (os : ReapOracle) (s : SnapState) : SnapState :=
  let procs := (List.filter (fun p => survivesReap os p.1) s.procs : List (Nat × PS))
  { procs := procs, reaped := s.reaped + (s.procs.length - procs.length) }

/-! ## Handle processor (`pkg/kstream/processors/handle_windows.go`) -/

/-- `filepath.Base`: the last path component, separators `\` and `/`. -/
def pathBase (s : String) : String :=
  let parts := (s.splitOn "\\").flatMap (fun t => t.splitOn "/")
  (List.filter (fun t => t ≠ "") parts).getLastD s

/-- `strings.EqualFold`, restricted to the ASCII folding the driver names
    use. -/
def equalFold (s t : String) : Bool := s.toLower = t.toLower

/-- Collaborators of the handle processor, all external contracts (§6):
    the registry-root parser `key.Format` (a recognized root name plus the
    subkey, or no root), the device-to-drive mapper, the loaded-driver
    enumeration, the duplicate-and-query fallback for unknown object
    types, and the handle snapshotter's `Write`/`Remove` (an optional
    error each). -/
structure HandleCfg where
  formatKey : String → Option String × String
  devConvert : String → String
  drivers : List String
  osTypeQuery : Nat → Nat → Except String String
  hsnapWrite : Kevent → Option String
  hsnapRemove : Kevent → Option String

/-- The handle processor's mutable state: the pending table of withheld
    `CreateHandle` events keyed by the object pointer, the
    `handle.deferred.matches` counter, and the object-type store. -/
structure HandleProcState where
  objects : List (Nat × Kevent)
  deferMatches : Nat := 0
  typeStore : List (Nat × String) := []

/-- Pending-table lookup `h.objects[object]`. -/
def lookupObj (l : List (Nat × Kevent)) (object : Nat) : Option Kevent :=
  List.lookup object l

/-- Pending-table insert `h.objects[object] = e`. -/
def insertObj (l : List (Nat × Kevent)) (object : Nat) (e : Kevent) :
    List (Nat × Kevent) :=
  (object, e) :: (List.filter (fun p => p.1 ≠ object) l : List (Nat × Kevent))

/-- Pending-table delete `delete(h.objects, object)`. -/
def eraseObj (l : List (Nat × Kevent)) (object : Nat) : List (Nat × Kevent) :=
  (List.filter (fun p => p.1 ≠ object) l : List (Nat × Kevent))

/-- The `switch typeName` block: canonicalize the object name per type.
    Registry keys are rewritten as `<RootName>\<Subkey>` when the root is
    recognized; file names run through the device mapper; driver names are
    stripped of the `\Driver\` prefix, suffixed `.sys`, and every loaded
    driver whose file basename matches case-insensitively contributes an
    `image_filename` parameter appended to the event. Returns the
    canonical name and the (possibly augmented) event. -/
def resolveObjectName (cfg : HandleCfg) (typeName name : String)
    (e : Kevent) : String × Kevent :=
  if typeName = "Key" then
    match cfg.formatKey name with
    | (none, _) => (name, e)
    | (some root, keyName) =>
      (if keyName = "" then root else root ++ "\\" ++ keyName, e)
  else if typeName = "File" then
    (cfg.devConvert name, e)
  else if typeName = "Driver" then
    let driverName :=
      (if name.startsWith "\\Driver\\" then name.drop 8 else name) ++ ".sys"
    let e := cfg.drivers.foldl (fun ev drv =>
      if equalFold (pathBase drv) driverName then
        { ev with kparams := ev.kparams.append "image_filename" (.path drv) }
      else ev) e
    (name, e)
  else (name, e)

/-- `handleProcessor.processEvent`: read the handle id, type id and object
    pointer; resolve the type name (querying the OS and registering the
    result when the store misses); swap the type id parameter for the type
    name; canonicalize the object name and write it back. A `CreateHandle`
    with an empty resolved name is withheld in the pending table under the
    cancel-upstream sentinel, otherwise written to the handle snapshotter.
    Any other handle event that matches a pending entry enriches and
    releases the withheld `CreateHandle` (incrementing the deferred-match
    counter); otherwise the event is removed from the handle snapshotter
    and returned unchanged. -/
def handleProcessEvent (cfg : HandleCfg) (st : HandleProcState)
    (e : Kevent) : Kevent × HandleProcState × Option PErr :=
  match e.kparams.getUint32 "handle_id" with
  | .error m => (e, st, some (.fail m))
  | .ok handleID =>
  match e.kparams.getUint16 "type_id" with
  | .error m => (e, st, some (.fail m))
  | .ok typeID =>
  match e.kparams.getUint64 "object" with
  | .error m => (e, st, some (.fail m))
  | .ok object =>
  let found := (List.lookup (typeID % 256) st.typeStore).getD ""
  let queried : Except String (String × HandleProcState) :=
    if found = "" then
      match cfg.osTypeQuery handleID e.pid with
      | .error m => .error m
      | .ok tn =>
        .ok (tn, { st with typeStore := (typeID % 256, tn) ::
          (List.filter (fun p => p.1 ≠ typeID % 256) st.typeStore : List (Nat × String)) })
    else .ok (found, st)
  match queried with
  | .error m => (e, st, some (.fail m))
  | .ok (typeName, st) =>
  let e := { e with kparams :=
    (e.kparams.append "type_name" (.str typeName)).remove "type_id" }
  match e.kparams.getString "handle_name" with
  | .error m => (e, st, some (.fail m))
  | .ok rawName =>
  let (name, e) := resolveObjectName cfg typeName rawName e
  match e.kparams.setValue "handle_name" (.str name) with
  | .error m => (e, st, some (.fail m))
  | .ok ps =>
  let e := { e with kparams := ps }
  if e.etype = Ktype.CreateHandle then
    if name = "" then
      (e, { st with objects := insertObj st.objects object e }, some .cancel)
    else
      (e, st, (cfg.hsnapWrite e).map .fail)
  else
    match lookupObj st.objects object with
    | some evt =>
      let st := { st with objects := eraseObj st.objects object }
      match evt.kparams.setValue "handle_name" (.str name) with
      | .error m => (e, st, some (.fail m))
      | .ok evtps =>
      let evt := { evt with kparams := evtps }
      let st := { st with deferMatches := st.deferMatches + 1 }
      let driverFilename := e.kparams.getParamAsString "image_filename"
      let evt :=
        if typeName = "Driver" then
          { evt with kparams :=
              evt.kparams.append "image_filename" (.path driverFilename) }
        else evt
      match cfg.hsnapWrite evt with
      | some _ =>
        match cfg.hsnapRemove e with
        | some m => (e, st, some (.fail m))
        | none => (evt, st, (cfg.hsnapRemove e).map .fail)
      | none => (evt, st, (cfg.hsnapRemove e).map .fail)
    | none => (e, st, (cfg.hsnapRemove e).map .fail)

/-- `handleProcessor.ProcessEvent`: handle-category events run
    `processEvent` and never proceed to a further processor; every other
    event passes through untouched. -/
def handleProcessorRun (cfg : HandleCfg) (st : HandleProcState)
    (e : Kevent) : (Kevent × Bool × Option PErr) × HandleProcState :=
  if e.category = Category.Handle then
    let (out, st, err) := handleProcessEvent cfg st e
    ((out, false, err), st)
  else ((e, true, none), st)

/-! ## Full record-callback runs (consumer + chain) -/

/-- The state a stream of record callbacks threads: the consumer's publish
    state and the handle processor's state (its pending table can withhold
    and later substitute events). -/
structure RunState where
  pub : PublishState
  hstate : HandleProcState

/-- One record callback (`processEvent`): the decoded event is stamped
    with `sequencer.Get()`; a handle-category event runs the handle
    processor — the chain stage that can withhold a nameless
    `CreateHandle` under the cancel-upstream sentinel and later return
    the held event in place of the `CloseHandle` — and a chain error
    (cancel included) suppresses publishing, while a clean chain output
    is published. Events of other categories reach `publishEvent` with
    their identity and sequence number intact (the process processor
    edits parameters and snapshotter state only and collected errors
    merely suppress the event, which cannot reorder deliveries). -/
def consumeOne (pcfg : PublishCfg) (hcfg : HandleCfg) (rs : RunState)
    (e : Kevent) : RunState :=
  let x := stamp rs.pub.sequencer e
  if x.category = Category.Handle then
    match handleProcessEvent hcfg rs.hstate x with
    | (out, hstate, none) =>
      { pub := publishEvent pcfg rs.pub out, hstate := hstate }
    | (_, hstate, some _) => { rs with hstate := hstate }
  else
    { rs with pub := publishEvent pcfg rs.pub x }

/-- A run of the consumer over a stream of decoded events, in
    OS-delivered order. -/
def consumeRun (pcfg : PublishCfg) (hcfg : HandleCfg) (rs : RunState)
    (es : List Kevent) : RunState :=
  es.foldl (consumeOne pcfg hcfg) rs

/-! ## Deadlock-safe handle-name resolver (handle package,
     `GetHandleWithTimeout`) -/

/-- Outcome of the wait on the `done` event. -/
inductive WaitOutcome where
  | signaled | timedOut | other
  deriving DecidableEq, Repr

/-- OS-level actions the resolver performs, recorded as a trace. -/
inductive OsAction where
  | resetIni | resetDone
  | createThread (t : Nat)
  | storeHandle (h : Nat)
  | setInit
  | waitDone
  | terminateThread (t : Nat)
  | joinThread (t : Nat)
  | closeThreadHandle (t : Nat)
  deriving DecidableEq, Repr

/-- Results of the OS calls the resolver makes in one invocation:
    event resets, worker-thread creation (0 = failure), signalling the
    init event, the wait on the done event together with the name the
    worker published, and the forced termination / join of the worker. -/
structure ResolverOs where
  resetIniOk : Bool := true
  resetDoneOk : Bool := true
  createThread : Nat := 1
  setInitOk : Bool := true
  waitDone : WaitOutcome
  queriedName : String := ""
  terminateOk : Bool := true
  joinOk : Bool := true

/-- The resolver's persistent state: the worker-thread slot (0 = no
    worker) and the `handle.wait.timeouts` counter. -/
structure ResolverState where
  thread : Nat := 0
  waitTimeouts : Nat := 0
  deriving DecidableEq, Repr

/-- The outcome of `GetHandleWithTimeout`: the resolved name, the
    returned error (if any), the new resolver state and the trace of OS
    actions performed. -/
structure ResolverOutcome where
  name : String
  err : Option String
  state : ResolverState
  trace : List OsAction
  deriving DecidableEq, Repr

/-- `GetHandleWithTimeout`: lazily (re)create the worker thread, hand it
    the handle through the shared slot, signal `init` and wait on `done`
    up to the timeout. On success return the published name. On timeout
    increment the timeout counter, forcibly terminate the worker, join
    it, close its handle and clear the thread slot, returning an empty
    name with the timeout error. Any other wait outcome returns an empty
    name with no error. -/
def getHandleWithTimeout (os : ResolverOs) (st : ResolverState)
    (handle : Nat) : ResolverOutcome :=
  let setup : Except (String × List OsAction) (ResolverState × List OsAction) :=
    if st.thread = 0 then
      if !os.resetIniOk then .error ("couldn't reset init event", [])
      else if !os.resetDoneOk then .error ("couldn't reset done event", [.resetIni])
      else if os.createThread = 0 then
        .error ("cannot create handle query thread", [.resetIni, .resetDone])
      else .ok ({ st with thread := os.createThread },
        [.resetIni, .resetDone, .createThread os.createThread])
    else .ok (st, [])
  match setup with
  | .error (m, tr) => ⟨"", some m, st, tr⟩
  | .ok (st, tr) =>
    let tr := tr ++ [.storeHandle handle]
    if !os.setInitOk then ⟨"", some "couldn't signal init event", st, tr⟩
    else
      let tr := tr ++ [.setInit, .waitDone]
      match os.waitDone with
      | .signaled => ⟨os.queriedName, none, st, tr⟩
      | .timedOut =>
        let st := { st with waitTimeouts := st.waitTimeouts + 1 }
        if !os.terminateOk then
          ⟨"", some "unable to terminate timeout thread", st,
            tr ++ [.terminateThread st.thread]⟩
        else if !os.joinOk then
          ⟨"", some "failed awaiting timeout thread termination", st,
            tr ++ [.terminateThread st.thread, .joinThread st.thread]⟩
        else
          ⟨"", some "couldn't resolve handle name due to timeout",
            { st with thread := 0 },
            tr ++ [.terminateThread st.thread, .joinThread st.thread,
                   .closeThreadHandle st.thread]⟩
      | .other => ⟨"", none, st, tr⟩

/-! ## Concrete instances used to exercise the handle processor -/

/-- Handle-processor collaborators for the pairing scenario: no registry
    root is recognized, the device mapper is the identity, no drivers are
    loaded, the type store is never queried, and the handle snapshotter
    accepts every write and removal. -/
def pairCfg : HandleCfg :=
  { formatKey := fun _ => (none, ""),
    devConvert := fun s => s,
    drivers := [],
    osTypeQuery := fun _ _ => .error "object type query unavailable",
    hsnapWrite := fun _ => none,
    hsnapRemove := fun _ => none }

/-- A `CreateHandle` event that resolved to an empty name and was parked
    in the pending table under object pointer 2748. -/
def pendingCreate : Kevent :=
  { seq := 3, pid := 11, etype := .CreateHandle, category := .Handle,
    kparams := [("handle_id", Kval.u32 44), ("object", Kval.u64 2748),
      ("handle_name", Kval.str ""), ("type_name", Kval.str "Key")] }

/-- The handle-processor state holding the parked `CreateHandle` and a
    type store that already knows type id 5 as `Key`. -/
def pendingState : HandleProcState :=
  { objects := [(2748, pendingCreate)], deferMatches := 0,
    typeStore := [(5, "Key")] }

/-- The matching `CloseHandle` on the same object pointer, shipping the
    registry name the create event lacked. -/
def closeEvent : Kevent :=
  { seq := 9, pid := 11, etype := .CloseHandle, category := .Handle,
    kparams := [("handle_id", Kval.u32 44), ("type_id", Kval.u16 5),
      ("object", Kval.u64 2748),
      ("handle_name", Kval.str "\\REGISTRY\\MACHINE\\SOFTWARE\\X")] }

/-- A `CreateHandle` of registry type 5 on object pointer 7 whose name
    resolves empty, so the handle processor withholds it. -/
def withheldCreate : Kevent :=
  { seq := 0, pid := 1, etype := .CreateHandle, category := .Handle,
    kparams := [("handle_id", Kval.u32 44), ("type_id", Kval.u16 5),
      ("object", Kval.u64 7), ("handle_name", Kval.str "")] }

/-- The `CloseHandle` on the same object pointer that releases the
    withheld create, shipping the name `X`. -/
def releasingClose : Kevent :=
  { seq := 0, pid := 1, etype := .CloseHandle, category := .Handle,
    kparams := [("handle_id", Kval.u32 44), ("type_id", Kval.u16 5),
      ("object", Kval.u64 7), ("handle_name", Kval.str "X")] }

/-- A fresh handle-processor state whose type store already knows type id
    5 as `Key`. -/
def runH0 : HandleProcState :=
  { objects := [], deferMatches := 0, typeStore := [(5, "Key")] }

/-- A resolver oracle describing a hung OS name query: the wait on the
    done event times out, while terminate and join succeed. -/
def hungOs : ResolverOs := { waitDone := .timedOut }

/-- A resolver oracle describing a healthy OS: thread creation yields
    thread 2 and the query completes. -/
def freshOs : ResolverOs :=
  { waitDone := .signaled, createThread := 2, queriedName := "ok" }

/-! # Theorems -/

/-! ## Chain walk (C4, C9) -/

theorem chainLastOut_cons (kevt : Kevent) (p : Processor)
    (rest : List Processor) :
    chainLastOut kevt (p :: rest) =
      match chainLastOut kevt rest with
      | some o => some o
      | none => some (p.run kevt).1 := by
  cases rest with
  | nil => simp [chainLastOut]
  | cons q rest' =>
    simp only [chainLastOut, List.getLast?_cons_cons]
    cases h : (q :: rest').getLast? with
    | none => simp at h
    | some v => simp

theorem chainGo_no_cancel (kevt : Kevent) :
    ∀ (c : List Processor) (errs : List (String × String)) (out : Option Kevent),
    (∀ p ∈ c, (p.run kevt).2.2 ≠ some PErr.cancel ∧
      ((p.run kevt).2.2 = none → (p.run kevt).2.1 = true)) →
    chainGo kevt c errs out =
      ((match chainLastOut kevt c with
        | some o => some o
        | none => out),
       mergeErrs (errs ++ chainCollect kevt c)) := by
  intro c
  induction c with
  | nil =>
    intro errs out _
    simp [chainGo, chainLastOut, chainCollect, mergeErrs]
  | cons p rest ih =>
    intro errs out h
    have hp := h p (List.mem_cons_self p rest)
    have hrest := fun q hq => h q (List.mem_cons_of_mem p hq)
    rcases hrun : p.run kevt with ⟨o, nx, er⟩
    rw [hrun] at hp
    have hlast : chainLastOut kevt (p :: rest) =
        match chainLastOut kevt rest with
        | some x => some x
        | none => some o := by
      rw [chainLastOut_cons, hrun]
    cases er with
    | none =>
      have hnx : nx = true := by simpa using hp.2
      subst hnx
      have hcollect : chainCollect kevt (p :: rest) = chainCollect kevt rest := by
        simp [chainCollect, hrun]
      simp only [chainGo, hrun, if_true]
      rw [hlast, hcollect, ih errs (some o) hrest]
      cases chainLastOut kevt rest <;> simp
    | some pe =>
      cases pe with
      | cancel => exact ((hp.1) rfl).elim
      | fail m =>
        have hcollect : chainCollect kevt (p :: rest) =
            (p.name, m) :: chainCollect kevt rest := by
          simp [chainCollect, hrun]
        simp only [chainGo, hrun]
        rw [hlast, hcollect, ih (errs ++ [(p.name, m)]) (some o) hrest]
        cases chainLastOut kevt rest <;> simp

theorem chainGo_cancel (kevt : Kevent) (p : Processor)
    (hp : (p.run kevt).2.2 = some PErr.cancel) :
    ∀ (pre post : List Processor) (errs : List (String × String))
      (out : Option Kevent),
    (∀ q ∈ pre, (q.run kevt).2.2 ≠ some PErr.cancel ∧
      ((q.run kevt).2.2 = none → (q.run kevt).2.1 = true)) →
    chainGo kevt (pre ++ p :: post) errs out =
      (some (p.run kevt).1, some ChainErr.cancel) := by
  intro pre
  induction pre with
  | nil =>
    intro post errs out _
    rcases hrun : p.run kevt with ⟨o, nx, er⟩
    rw [hrun] at hp
    simp only at hp
    subst hp
    simp [chainGo, hrun]
  | cons q rest ih =>
    intro post errs out h
    have hq := h q (List.mem_cons_self q rest)
    have hrest := fun r hr => h r (List.mem_cons_of_mem q hr)
    rcases hrun : q.run kevt with ⟨o, nx, er⟩
    rw [hrun] at hq
    cases er with
    | none =>
      have hnx : nx = true := by simpa using hq.2
      subst hnx
      simp only [List.cons_append, chainGo, hrun]
      exact ih post errs (some o) hrest
    | some pe =>
      cases pe with
      | cancel => exact ((hq.1) rfl).elim
      | fail m =>
        simp only [List.cons_append, chainGo, hrun]
        exact ih post (errs ++ [(q.name, m)]) (some o) hrest

/-- C4: when no processor cancels, the chain walks every processor
    (continuing past non-cancel failures), returns the last processor's
    event, and surfaces all collected failures merged into one combined
    error; a processor returning the cancel-upstream sentinel makes
    `ProcessEvent` return immediately with that sentinel and the current
    event, the processors after it never influencing the result. -/
theorem C4_chain_error_handling (kevt : Kevent) :
    (∀ c : List Processor,
      (∀ p ∈ c, (p.run kevt).2.2 ≠ some PErr.cancel ∧
        ((p.run kevt).2.2 = none → (p.run kevt).2.1 = true)) →
      chainProcessEvent c kevt =
        (chainLastOut kevt c, mergeErrs (chainCollect kevt c))) ∧
    (∀ (pre post : List Processor) (p : Processor),
      (∀ q ∈ pre, (q.run kevt).2.2 ≠ some PErr.cancel ∧
        ((q.run kevt).2.2 = none → (q.run kevt).2.1 = true)) →
      (p.run kevt).2.2 = some PErr.cancel →
      chainProcessEvent (pre ++ p :: post) kevt =
        (some (p.run kevt).1, some ChainErr.cancel)) := by
  constructor
  · intro c h
    rw [chainProcessEvent, chainGo_no_cancel kevt c [] none h]
    cases chainLastOut kevt c <;> simp
  · intro pre post p h hp
    exact chainGo_cancel kevt p hp pre post [] none h

/-- Witness for C4: a two-processor chain where the first fails and the
    second succeeds collects exactly the first failure, and a cancelling
    processor placed after a clean one short-circuits. -/
theorem C4_chain_error_handling_witness :
    (chainProcessEvent
        [⟨"ps", fun e => (e, true, some (.fail "boom"))⟩,
         ⟨"handle", fun e => (e, true, none)⟩] defaultKevent =
      (some defaultKevent, some (ChainErr.merged [("ps", "boom")]))) ∧
    (chainProcessEvent
        [⟨"ps", fun e => (e, true, none)⟩,
         ⟨"handle", fun e => (e, false, some PErr.cancel)⟩,
         ⟨"never", fun e => (e, true, some (.fail "unreached"))⟩]
        defaultKevent =
      (some defaultKevent, some ChainErr.cancel)) := by
  constructor
  · have h := (C4_chain_error_handling defaultKevent).1
      [⟨"ps", fun e => (e, true, some (.fail "boom"))⟩,
       ⟨"handle", fun e => (e, true, none)⟩]
      (by simp)
    rw [h]
    simp [chainLastOut, chainCollect, mergeErrs]
  · have h := (C4_chain_error_handling defaultKevent).2
      [⟨"ps", fun e => (e, true, none)⟩]
      [⟨"never", fun e => (e, true, some (.fail "unreached"))⟩]
      ⟨"handle", fun e => (e, false, some PErr.cancel)⟩
      (by simp) (by simp)
    simpa using h

/-- C9 counterexample: with two registered processors, `chain.Close`
    invokes the closes in registration order, not in reverse order as the
    claim states. -/
theorem C9_close_reverse_order_cex :
    (chainClose [⟨"ps", fun e => (e, true, none)⟩,
                 ⟨"handle", fun e => (e, true, none)⟩]).1 ≠
      (List.map Processor.name
        [(⟨"ps", fun e => (e, true, none)⟩ : Processor),
         ⟨"handle", fun e => (e, true, none)⟩]).reverse := by
  simp [chainClose]

/-- C9 (amended): `chain.Close` invokes Close on every registered
    processor in registration order (first registered closed first) and
    returns no error; the individual closes return nothing, so no failure
    can abort the loop. -/
theorem C9_close_registration_order (c : List Processor) :
    chainClose c = (c.map Processor.name, none) := by
  induction c with
  | nil => simp [chainClose]
  | cons p rest ih => simp [chainClose, ih]

/-! ## Association-list lemmas for the snapshotter index -/

theorem lookup_filter_key {α : Type} (pred : Nat → Bool) (k : Nat) :
    ∀ l : List (Nat × α),
    List.lookup k (l.filter (fun p => pred p.1)) =
      if pred k then List.lookup k l else none := by
  intro l
  induction l with
  | nil => simp
  | cons a t ih =>
    rcases a with ⟨ka, va⟩
    by_cases hk : k = ka
    · subst hk
      cases hpk : pred k <;> simp [List.lookup, hpk, ih]
    · have hbeq : (k == ka) = false := by simpa using hk
      cases hpa : pred ka <;> cases hpk : pred k <;>
        simp [List.lookup, hpa, hpk, hbeq, ih]

theorem lookup_filter_ne {α : Type} (pid k : Nat) :
    ∀ l : List (Nat × α),
    List.lookup k (List.filter (fun p => p.1 ≠ pid) l) =
      if k = pid then none else List.lookup k l := by
  intro l
  induction l with
  | nil => simp
  | cons a t ih =>
    simp only [ne_eq, decide_not] at ih ⊢
    rcases a with ⟨ka, va⟩
    by_cases hka : ka = pid
    · subst hka
      by_cases hk : k = ka
      · subst hk; simp [List.lookup, ih]
      · have hb : (k == ka) = false := by simpa using hk
        simp [List.lookup, hb, ih, hk]
    · by_cases hk : k = ka
      · subst hk
        simp [List.lookup, hka, ih]
      · have hb : (k == ka) = false := by simpa using hk
        simp [List.lookup, hka, hb, ih]

theorem lookupProc_insertProc (l : List (Nat × PS)) (pid k : Nat) (v : PS) :
    lookupProc (insertProc l pid v) k =
      if k = pid then some v else lookupProc l k := by
  by_cases hk : k = pid
  · subst hk
    simp [lookupProc, insertProc, List.lookup]
  · have hbeq : (k == pid) = false := by simpa using hk
    simp only [lookupProc, insertProc, List.lookup, hbeq]
    rw [lookup_filter_ne pid k l]
    simp [hk]

theorem lookupProc_eraseProc (l : List (Nat × PS)) (pid k : Nat) :
    lookupProc (eraseProc l pid) k =
      if k = pid then none else lookupProc l k := by
  simp only [lookupProc, eraseProc]
  exact lookup_filter_ne pid k l

theorem lookup_mapval {α β : Type} (g : α → β) (k : Nat) :
    ∀ l : List (Nat × α),
    List.lookup k (l.map (fun p => (p.1, g p.2))) =
      (List.lookup k l).map g := by
  intro l
  induction l with
  | nil => simp
  | cons a t ih =>
    rcases a with ⟨ka, va⟩
    by_cases hk : k = ka
    · subst hk; simp [List.lookup]
    · have hbeq : (k == ka) = false := by simpa using hk
      simp [List.lookup, hbeq, ih]

/-! ## Reaper (C6) -/

/-- C6: a reaper sweep deletes a record only when the OS reports its
    process not running: a PID whose limited-information open fails keeps
    its record, a PID whose open succeeds with the process still running
    keeps its record, a PID whose process the OS reports not running
    loses its record, and the `process.reaped` counter grows by exactly
    the number of removed records. -/
theorem C6_reaper_deletes_only_dead (os : ReapOracle) (s : SnapState)
    (pid : Nat) (r : PS) (h : lookupProc s.procs pid = some r) :
    (os pid = none → lookupProc (gcSweep os s).procs pid = some r) ∧
    (os pid = some true → lookupProc (gcSweep os s).procs pid = some r) ∧
    (os pid = some false → lookupProc (gcSweep os s).procs pid = none) ∧
    (gcSweep os s).reaped = s.reaped +
      (List.filter (fun p => !survivesReap os p.1) s.procs).length := by
  have hlk := lookup_filter_key (fun j => survivesReap os j) pid s.procs
  have hlen := List.length_eq_length_filter_add
    (l := s.procs) (fun p => survivesReap os p.1)
  refine ⟨?_, ?_, ?_, ?_⟩
  · intro hos
    have hs : survivesReap os pid = true := by simp [survivesReap, hos]
    simp only [gcSweep, lookupProc] at hlk ⊢
    rw [hlk, hs, if_pos rfl]
    exact h
  · intro hos
    have hs : survivesReap os pid = true := by simp [survivesReap, hos]
    simp only [gcSweep, lookupProc] at hlk ⊢
    rw [hlk, hs, if_pos rfl]
    exact h
  · intro hos
    have hs : survivesReap os pid = false := by simp [survivesReap, hos]
    simp only [gcSweep, lookupProc] at hlk ⊢
    rw [hlk, hs]
    simp
  · simp only [gcSweep]
    omega

/-- Witness for C6: an index holding PIDs 200 (open fails) and 201 (open
    succeeds, not running): 200 is kept, 201 is removed, and one record
    is counted as reaped. -/
theorem C6_reaper_deletes_only_dead_witness :
    (lookupProc [(200, PS.newProc 200 4 "a" "a" "a" "s" 0),
                 (201, PS.newProc 201 4 "b" "b" "b" "s" 0)] 200 =
       some (PS.newProc 200 4 "a" "a" "a" "s" 0)) ∧
    (lookupProc (gcSweep
        (fun pid => if pid = 201 then some false else none)
        ⟨[(200, PS.newProc 200 4 "a" "a" "a" "s" 0),
          (201, PS.newProc 201 4 "b" "b" "b" "s" 0)], 0⟩).procs 200 =
       some (PS.newProc 200 4 "a" "a" "a" "s" 0)) ∧
    (lookupProc (gcSweep
        (fun pid => if pid = 201 then some false else none)
        ⟨[(200, PS.newProc 200 4 "a" "a" "a" "s" 0),
          (201, PS.newProc 201 4 "b" "b" "b" "s" 0)], 0⟩).procs 201 = none) ∧
    (gcSweep (fun pid => if pid = 201 then some false else none)
        ⟨[(200, PS.newProc 200 4 "a" "a" "a" "s" 0),
          (201, PS.newProc 201 4 "b" "b" "b" "s" 0)], 0⟩).reaped = 1 := by
  have h200 := C6_reaper_deletes_only_dead
    (fun pid => if pid = 201 then some false else none)
    ⟨[(200, PS.newProc 200 4 "a" "a" "a" "s" 0),
      (201, PS.newProc 201 4 "b" "b" "b" "s" 0)], 0⟩
    200 (PS.newProc 200 4 "a" "a" "a" "s" 0) (by decide)
  have h201 := C6_reaper_deletes_only_dead
    (fun pid => if pid = 201 then some false else none)
    ⟨[(200, PS.newProc 200 4 "a" "a" "a" "s" 0),
      (201, PS.newProc 201 4 "b" "b" "b" "s" 0)], 0⟩
    201 (PS.newProc 201 4 "b" "b" "b" "s" 0) (by decide)
  refine ⟨by decide, h200.1 (by decide), h201.2.2.1 (by decide), ?_⟩
  rw [h200.2.2.2]
  decide

/-! ## Remove (C7) -/

/-- C7: after `Remove(e)` for an event whose pid parameter is `p`, the
    index holds no record for `p`, and every surviving record is exactly
    the old one except that a parent PID equal to `p` has its parent
    pointer nulled; records whose parent is not `p` are untouched and no
    record appears or disappears besides `p`'s. -/
theorem C7_remove_clears_record_and_orphans (s : SnapState) (e : Kevent)
    (pid : Nat) (h : e.kparams.getPid = Except.ok pid) :
    ∃ s', removeProc s e = .ok s' ∧
      lookupProc s'.procs pid = none ∧
      ∀ q, q ≠ pid →
        lookupProc s'.procs q =
          (lookupProc s.procs q).map (orphan pid) ∧
        (∀ r, lookupProc s.procs q = some r → r.ppid ≠ pid →
          lookupProc s'.procs q = some r) := by
  refine ⟨{ s with procs :=
      (eraseProc s.procs pid).map (fun p => (p.1, orphan pid p.2)) },
    ?_, ?_, ?_⟩
  · simp only [removeProc, h]
    rfl
  · rw [lookupProc, lookup_mapval]
    have := lookupProc_eraseProc s.procs pid pid
    rw [lookupProc] at this
    rw [this, if_pos rfl]
    rfl
  · intro q hq
    have hmain : lookupProc ((eraseProc s.procs pid).map
        (fun p => (p.1, orphan pid p.2))) q =
        (lookupProc s.procs q).map (orphan pid) := by
      rw [lookupProc, lookup_mapval]
      have := lookupProc_eraseProc s.procs pid q
      rw [lookupProc] at this
      rw [this, if_neg hq]
    refine ⟨hmain, ?_⟩
    intro r hr hppid
    rw [hmain, hr]
    simp [orphan, hppid]

/-- Witness for C7: removing PID 7 from an index holding 7 (child of 1),
    8 (child of 7) and 9 (child of 1) deletes 7, orphans 8 and leaves 9
    alone. -/
theorem C7_remove_clears_record_and_orphans_witness :
    ∃ s', removeProc
        ⟨[(7, { PS.newProc 7 1 "a" "a" "a" "s" 0 with parent := some 1 }),
          (8, { PS.newProc 8 7 "b" "b" "b" "s" 0 with parent := some 7 }),
          (9, { PS.newProc 9 1 "c" "c" "c" "s" 0 with parent := some 1 })], 0⟩
        { defaultKevent with kparams := [("pid", Kval.u32 7)] } = .ok s' ∧
      lookupProc s'.procs 7 = none ∧
      lookupProc s'.procs 8 = some (PS.newProc 8 7 "b" "b" "b" "s" 0) ∧
      lookupProc s'.procs 9 =
        some { PS.newProc 9 1 "c" "c" "c" "s" 0 with parent := some 1 } := by
  obtain ⟨s', h1, h2, h3⟩ := C7_remove_clears_record_and_orphans
    ⟨[(7, { PS.newProc 7 1 "a" "a" "a" "s" 0 with parent := some 1 }),
      (8, { PS.newProc 8 7 "b" "b" "b" "s" 0 with parent := some 7 }),
      (9, { PS.newProc 9 1 "c" "c" "c" "s" 0 with parent := some 1 })], 0⟩
    { defaultKevent with kparams := [("pid", Kval.u32 7)] } 7 (by decide)
  refine ⟨s', h1, h2, ?_, ?_⟩
  · rw [(h3 8 (by decide)).1]
    decide
  · rw [(h3 9 (by decide)).1]
    decide

/-! ## Write is not atomic on error (C10) -/

/-- C10: whenever the pid and ppid parameters are readable and `initProc`
    yields a (possibly partial) record together with an error, `Write`
    still inserts the record into the index, links its parent pointer
    (set exactly when the parent pid is the new pid itself or already
    indexed), sets the event's process-state field, and then returns that
    error: the index is mutated on the error path. -/
theorem C10_write_mutates_index_on_error (s : SnapState) (e : Kevent)
    (pid ppid : Nat) (proc : PS) (err : String)
    (h1 : e.kparams.getPid = Except.ok pid)
    (h2 : e.kparams.getPpid = Except.ok ppid) :
    ∃ s' e' par, writeProc s e (proc, some err) = .ok (s', e', some err) ∧
      lookupProc s'.procs pid = some { proc with parent := par } ∧
      par = (if ppid = pid ∨ (lookupProc s.procs ppid).isSome = true
             then some ppid else none) ∧
      (e.isCreateProcess = true → e'.ps = lookupProc s'.procs e.pid) ∧
      (e.isCreateProcess = false → e'.ps = some { proc with parent := par }) ∧
      e'.kparams = e.kparams := by
  have hpar : (linkParent (insertProc s.procs pid proc) proc ppid).parent =
      (if ppid = pid ∨ (lookupProc s.procs ppid).isSome = true
       then some ppid else none) := by
    simp only [linkParent, lookupProc_insertProc]
    by_cases hpp : ppid = pid <;> simp [hpp]
  have hw : writeProc s e (proc, some err) =
      .ok ({ s with procs :=
              (insertProc (insertProc s.procs pid proc) pid
                (linkParent (insertProc s.procs pid proc) proc ppid)) },
           (if e.isCreateProcess then
              setPS e (lookupProc (insertProc (insertProc s.procs pid proc) pid
                (linkParent (insertProc s.procs pid proc) proc ppid)) e.pid)
            else
              setPS e (some (linkParent (insertProc s.procs pid proc) proc ppid))),
           some err) := by
    simp only [writeProc, h1, h2]
    rfl
  refine ⟨_, _, (linkParent (insertProc s.procs pid proc) proc ppid).parent,
    hw, ?_, hpar, ?_, ?_, ?_⟩
  · rw [lookupProc_insertProc, if_pos rfl]
    rfl
  · intro hc
    simp [hc, setPS]
  · intro hc
    simp [hc, setPS, linkParent]
  · cases hc : e.isCreateProcess <;> simp [hc, setPS]

/-- Witness for C10: a failing `initProc` for pid 30 (parent 4 absent from
    the index) still lands the partial record in the index and the error
    is surfaced. -/
theorem C10_write_mutates_index_on_error_witness :
    ∃ s' e' par, writeProc ⟨[], 0⟩
        { defaultKevent with
            etype := .ProcessRundown,
            kparams := [("pid", Kval.u32 30), ("ppid", Kval.u32 4)] }
        (PS.newProc 30 4 "m" "m" "m" "s" 0, some "pe read failure") =
        .ok (s', e', some "pe read failure") ∧
      lookupProc s'.procs 30 =
        some { PS.newProc 30 4 "m" "m" "m" "s" 0 with parent := par } ∧
      par = none := by
  obtain ⟨s', e', par, hw, hl, hp, _, _, _⟩ :=
    C10_write_mutates_index_on_error ⟨[], 0⟩
      { defaultKevent with
          etype := .ProcessRundown,
          kparams := [("pid", Kval.u32 30), ("ppid", Kval.u32 4)] }
      30 4 (PS.newProc 30 4 "m" "m" "m" "s" 0) "pe read failure"
      (by decide) (by decide)
  exact ⟨s', e', par, hw, hl, by rw [hp]; decide⟩

/-! ## WriteFromKcap (C5) -/

/-- C5 counterexample: in replay mode a `CreateProcess` event is *not*
    adopted verbatim from its embedded record: the index receives a fresh
    record built from the event parameters, which differs from the
    embedded record whenever their fields differ (here the names differ). -/
theorem C5_createprocess_not_verbatim_cex :
    ∃ s', writeFromKcap ⟨[], 0⟩
        { defaultKevent with
            etype := .CreateProcess,
            ps := some (PS.newProc 50 60 "X" "x" "x" "s" 0),
            kparams := [("pid", Kval.u32 100), ("ppid", Kval.u32 4),
              ("name", Kval.str "Y"), ("cmdline", Kval.str "c"),
              ("exe", Kval.str "e"), ("sid", Kval.str "sd"),
              ("sess", Kval.u32 0)] } = .ok s' ∧
      lookupProc s'.procs 100 ≠ some (PS.newProc 50 60 "X" "x" "x" "s" 0) ∧
      lookupProc s'.procs 100 = some (PS.newProc 100 4 "Y" "c" "e" "sd" 0) := by
  refine ⟨⟨[(100, PS.newProc 100 4 "Y" "c" "e" "sd" 0)], 0⟩, ?_, by decide, by decide⟩
  rfl

/-- C5 (amended): in replay mode `WriteFromKcap` adopts the embedded
    record verbatim (up to linking its parent pointer) only for
    `ProcessRundown` events; a rundown whose embedded record is its own
    parent is discarded, leaving the index and `Size()` unchanged; a
    `CreateProcess` event instead stores a fresh record built from the
    event parameters. -/
theorem C5_writeFromKcap_process_events (s : SnapState) (e : Kevent)
    (proc : PS) (pid ppid : Nat) (hps : e.ps = some proc)
    (h1 : e.kparams.getPid = Except.ok pid)
    (h2 : e.kparams.getPpid = Except.ok ppid) :
    (e.etype = Ktype.ProcessRundown → proc.pid = proc.ppid →
      writeFromKcap s e = .ok s) ∧
    (e.etype = Ktype.ProcessRundown → proc.pid ≠ proc.ppid →
      ∃ s', writeFromKcap s e = .ok s' ∧
        lookupProc s'.procs pid =
          some (linkParent (insertProc s.procs pid proc) proc ppid)) ∧
    (e.etype = Ktype.CreateProcess →
      ∃ s', writeFromKcap s e = .ok s' ∧
        lookupProc s'.procs pid = some (PS.newProc pid ppid
          (e.kparams.getParamAsString "name")
          (e.kparams.getParamAsString "cmdline")
          (e.kparams.getParamAsString "exe")
          (e.kparams.getParamAsString "sid")
          (e.kparams.mustGetUint32 "sess" % 256))) := by
  refine ⟨?_, ?_, ?_⟩
  · intro ht hpp
    simp only [writeFromKcap, ht, hps, h1, h2, hpp]
    rfl
  · intro ht hpp
    refine ⟨{ s with procs :=
        (insertProc (insertProc s.procs pid proc) pid
          (linkParent (insertProc s.procs pid proc) proc ppid)) }, ?_, ?_⟩
    · have hred : writeFromKcap s e =
          (if proc.pid = proc.ppid then Except.ok s
           else Except.ok { s with procs :=
             (insertProc (insertProc s.procs pid proc) pid
               (linkParent (insertProc s.procs pid proc) proc ppid)) }) := by
        simp only [writeFromKcap, ht, hps, h1, h2]
        rfl
      rw [hred, if_neg hpp]
    · rw [lookupProc_insertProc, if_pos rfl]
  · intro ht
    refine ⟨{ s with procs :=
        (insertProc s.procs pid (PS.newProc pid ppid
          (e.kparams.getParamAsString "name")
          (e.kparams.getParamAsString "cmdline")
          (e.kparams.getParamAsString "exe")
          (e.kparams.getParamAsString "sid")
          (e.kparams.mustGetUint32 "sess" % 256))) }, ?_, ?_⟩
    · simp only [writeFromKcap, ht, hps, h1, h2]
      rfl
    · rw [lookupProc_insertProc, if_pos rfl]

/-- Witness for C5 (amended): a self-parent rundown record (pid = ppid =
    77 in the embedded record) is discarded, and a well-formed rundown is
    adopted verbatim with its parent linked to nothing. -/
theorem C5_writeFromKcap_process_events_witness :
    (writeFromKcap ⟨[(1, PS.newProc 1 0 "i" "i" "i" "s" 0)], 0⟩
        { defaultKevent with
            etype := .ProcessRundown,
            ps := some (PS.newProc 77 77 "z" "z" "z" "s" 0),
            kparams := [("pid", Kval.u32 77), ("ppid", Kval.u32 77)] } =
      .ok ⟨[(1, PS.newProc 1 0 "i" "i" "i" "s" 0)], 0⟩) ∧
    (∃ s', writeFromKcap ⟨[], 0⟩
        { defaultKevent with
            etype := .ProcessRundown,
            ps := some (PS.newProc 88 4 "w" "w" "w" "s" 0),
            kparams := [("pid", Kval.u32 88), ("ppid", Kval.u32 4)] } = .ok s' ∧
      lookupProc s'.procs 88 = some (PS.newProc 88 4 "w" "w" "w" "s" 0)) := by
  constructor
  · exact (C5_writeFromKcap_process_events
      ⟨[(1, PS.newProc 1 0 "i" "i" "i" "s" 0)], 0⟩
      { defaultKevent with
          etype := .ProcessRundown,
          ps := some (PS.newProc 77 77 "z" "z" "z" "s" 0),
          kparams := [("pid", Kval.u32 77), ("ppid", Kval.u32 77)] }
      (PS.newProc 77 77 "z" "z" "z" "s" 0) 77 77
      (by decide) (by decide) (by decide)).1 rfl (by decide)
  · obtain ⟨s', hw, hl⟩ := (C5_writeFromKcap_process_events ⟨[], 0⟩
      { defaultKevent with
          etype := .ProcessRundown,
          ps := some (PS.newProc 88 4 "w" "w" "w" "s" 0),
          kparams := [("pid", Kval.u32 88), ("ppid", Kval.u32 4)] }
      (PS.newProc 88 4 "w" "w" "w" "s" 0) 88 4
      (by decide) (by decide) (by decide)).2.1 rfl (by decide)
    refine ⟨s', hw, ?_⟩
    rw [hl]
    decide

/-! ## Self-event suppression (C1) -/

theorem attachPS_pid (cfg : PublishCfg) (e : Kevent) :
    (attachPS cfg e).pid = e.pid := by
  unfold attachPS
  split <;> rfl

theorem attachPS_seq (cfg : PublishCfg) (e : Kevent) :
    (attachPS cfg e).seq = e.seq := by
  unfold attachPS
  split <;> rfl

theorem attachPS_stateFlag (cfg : PublishCfg) (e : Kevent) :
    (attachPS cfg e).stateFlag = e.stateFlag := by
  unfold attachPS
  split <;> rfl

theorem isEventDropped_self (cfg : PublishCfg) (e : Kevent)
    (h : e.pid = cfg.agentPid) :
    isEventDropped cfg e = some DropReason.state ∨
    isEventDropped cfg e = some DropReason.rundownDup ∨
    isEventDropped cfg e = some DropReason.currentPid := by
  unfold isEventDropped
  by_cases h1 : (e.stateFlag && !cfg.capture) = true
  · rw [if_pos h1]
    exact Or.inl rfl
  · rw [if_neg h1]
    by_cases h2 : (e.rundownFlag && e.rundownProcessed) = true
    · rw [if_pos h2]
      exact Or.inr (Or.inl rfl)
    · rw [if_neg h2, if_pos h]
      exact Or.inr (Or.inr rfl)

/-- C1 counterexample: the excluded-image check runs *before* the
    self-PID check, so an event produced by the agent's own PID whose
    resolved image is in the excluded-image set bumps the
    `kstream.excluded.procs` counter — contradicting the claim that
    `excluded.procs` stays unchanged because the self-filter would come
    first. The event is still never delivered. -/
theorem C1_self_pid_bumps_excluded_procs_cex :
    ({ defaultKevent with pid := 7 } : Kevent).pid = selfExcludeCfg.agentPid ∧
    (publishEvent selfExcludeCfg (initState 0)
      { defaultKevent with pid := 7 }).excludedProcs = 1 ∧
    (initState 0).excludedProcs = 0 ∧
    (publishEvent selfExcludeCfg (initState 0)
      { defaultKevent with pid := 7 }).delivered = [] := by
  refine ⟨rfl, ?_, rfl, ?_⟩ <;> rfl

/-- C1 (amended): an event whose PID equals the agent's own PID never
    reaches the output channel or the callback and leaves
    `keventsEnqueued` and the sequencer untouched; however the
    excluded-image check precedes the self-PID check, so
    `excluded.procs` increments exactly when the event's resolved image
    is in the excluded set, and is unchanged otherwise. -/
theorem C1_self_events_never_delivered (cfg : PublishCfg)
    (st : PublishState) (e : Kevent) (h : e.pid = cfg.agentPid) :
    (publishEvent cfg st e).delivered = st.delivered ∧
    (publishEvent cfg st e).keventsEnqueued = st.keventsEnqueued ∧
    (publishEvent cfg st e).sequencer = st.sequencer ∧
    (cfg.excludeImage (cfg.find e.pid) = true →
      (publishEvent cfg st e).excludedProcs = st.excludedProcs + 1) ∧
    (cfg.excludeImage (cfg.find e.pid) = false →
      (publishEvent cfg st e).excludedProcs = st.excludedProcs) := by
  by_cases hEx : cfg.excludeImage (cfg.find e.pid) = true
  · have hpub : publishEvent cfg st e =
        { st with excludedProcs := st.excludedProcs + 1 } := by
      simp only [publishEvent, hEx, if_true]
    refine ⟨by rw [hpub], by rw [hpub], by rw [hpub],
      fun _ => by rw [hpub], ?_⟩
    intro hf
    rw [hEx] at hf
    cases hf
  · have hEx' : cfg.excludeImage (cfg.find e.pid) = false := by
      simpa using hEx
    have hpid : (attachPS cfg e).pid = cfg.agentPid := by
      rw [attachPS_pid, h]
    have hdrop := isEventDropped_self cfg (attachPS cfg e) hpid
    have hpub : publishEvent cfg st e = st := by
      simp only [publishEvent, hEx', Bool.false_eq_true, if_false]
      rcases hdrop with hd | hd | hd <;> rw [hd]
    refine ⟨by rw [hpub], by rw [hpub], by rw [hpub], ?_,
      fun _ => by rw [hpub]⟩
    intro hf
    rw [hEx'] at hf
    cases hf

/-- Witness for C1 (amended): a self event under a configuration that
    does not exclude the agent's image is dropped with every counter
    untouched. -/
theorem C1_self_events_never_delivered_witness :
    (publishEvent captureCfg (initState 5)
      { defaultKevent with pid := 999 }).delivered = [] ∧
    (publishEvent captureCfg (initState 5)
      { defaultKevent with pid := 999 }).keventsEnqueued = 0 ∧
    (publishEvent captureCfg (initState 5)
      { defaultKevent with pid := 999 }).excludedProcs = 0 := by
  obtain ⟨h1, h2, _, _, h5⟩ := C1_self_events_never_delivered captureCfg
    (initState 5) { defaultKevent with pid := 999 } rfl
  exact ⟨h1, h2, h5 rfl⟩

/-! ## Sequence-number monotonicity (C2) -/

/-- C2 counterexample: sequence numbers are not strictly monotonic across
    published events — they are not even non-decreasing. A `CreateHandle`
    withheld by the handle processor keeps its decode-time stamp (0) and
    no increment happens; two ordinary events are then published with
    stamps 0 and 1; the matching `CloseHandle` makes the chain return the
    held Create, which is published with its old stamp 0 after the event
    stamped 1 — delivered sequence numbers 0, 1, 0. And in capture mode
    two consecutive state events are both published with the same
    sequence number. -/
theorem C2_deferred_release_and_state_events_cex :
    ((consumeRun captureCfg pairCfg ⟨initState 0, runH0⟩
        [withheldCreate, defaultKevent, defaultKevent,
         releasingClose]).pub.delivered.map Kevent.seq = [0, 1, 0]) ∧
    ¬ List.Pairwise (fun a b : Kevent => a.seq < b.seq)
      (consumeRun captureCfg pairCfg ⟨initState 0, runH0⟩
        [withheldCreate, defaultKevent, defaultKevent,
         releasingClose]).pub.delivered ∧
    ¬ List.Pairwise (fun a b : Kevent => a.seq ≤ b.seq)
      (consumeRun captureCfg pairCfg ⟨initState 0, runH0⟩
        [withheldCreate, defaultKevent, defaultKevent,
         releasingClose]).pub.delivered ∧
    ((consumeRun captureCfg pairCfg ⟨initState 0, runH0⟩
        [stateEvent, stateEvent]).pub.delivered.map Kevent.seq = [0, 0]) ∧
    ¬ List.Pairwise (fun a b : Kevent => a.seq < b.seq)
      (consumeRun captureCfg pairCfg ⟨initState 0, runH0⟩
        [stateEvent, stateEvent]).pub.delivered := by
  have heq1 : (consumeRun captureCfg pairCfg ⟨initState 0, runH0⟩
      [withheldCreate, defaultKevent, defaultKevent,
       releasingClose]).pub.delivered.map Kevent.seq = [0, 1, 0] := rfl
  have heq2 : (consumeRun captureCfg pairCfg ⟨initState 0, runH0⟩
      [stateEvent, stateEvent]).pub.delivered.map Kevent.seq = [0, 0] := rfl
  refine ⟨heq1, ?_, ?_, heq2, ?_⟩
  · intro h
    have h' := (List.pairwise_map (f := Kevent.seq)).mpr h
    rw [heq1] at h'
    exact absurd h' (by decide)
  · intro h
    have h' := (List.pairwise_map (f := Kevent.seq)).mpr h
    rw [heq1] at h'
    exact absurd h' (by decide)
  · intro h
    have h' := (List.pairwise_map (f := Kevent.seq)).mpr h
    rw [heq2] at h'
    exact absurd h' (by decide)

/-- What one `publishEvent` call does to the delivered list and the
    sequencer: either the event is dropped and both are unchanged, or the
    attached event is appended and the sequencer grows only for non-state
    events. -/
theorem publishEvent_spec (cfg : PublishCfg) (st : PublishState)
    (x : Kevent) :
    ((publishEvent cfg st x).delivered = st.delivered ∧
     (publishEvent cfg st x).sequencer = st.sequencer) ∨
    ((publishEvent cfg st x).delivered = st.delivered ++ [attachPS cfg x] ∧
     (publishEvent cfg st x).sequencer =
       (if x.stateFlag = true then st.sequencer else st.sequencer + 1)) := by
  by_cases hEx : cfg.excludeImage (cfg.find x.pid) = true
  · left
    have hpub : publishEvent cfg st x =
        { st with excludedProcs := st.excludedProcs + 1 } := by
      simp only [publishEvent, hEx, if_true]
    rw [hpub]
    exact ⟨rfl, rfl⟩
  · have hEx' : cfg.excludeImage (cfg.find x.pid) = false := by simpa using hEx
    simp only [publishEvent, hEx', Bool.false_eq_true, if_false]
    cases hdrop : isEventDropped cfg (attachPS cfg x) with
    | some r =>
      cases r <;> exact Or.inl ⟨rfl, rfl⟩
    | none =>
      right
      have hsf : (attachPS cfg x).stateFlag = x.stateFlag :=
        attachPS_stateFlag cfg x
      cases hx : x.stateFlag <;> rw [hx] at hsf <;>
        cases hcb : cfg.useCallback <;>
          simp [hsf, hcb]

theorem publishEvent_sequencer_mono (cfg : PublishCfg) (st : PublishState)
    (x : Kevent) : st.sequencer ≤ (publishEvent cfg st x).sequencer := by
  rcases publishEvent_spec cfg st x with ⟨_, h⟩ | ⟨_, h⟩
  · rw [h]
  · rw [h]
    split <;> omega

theorem consumeOne_sequencer_mono (pcfg : PublishCfg) (hcfg : HandleCfg)
    (rs : RunState) (e : Kevent) :
    rs.pub.sequencer ≤ (consumeOne pcfg hcfg rs e).pub.sequencer := by
  simp only [consumeOne]
  by_cases hc : (stamp rs.pub.sequencer e).category = Category.Handle
  · rw [if_pos hc]
    rcases hh : handleProcessEvent hcfg rs.hstate (stamp rs.pub.sequencer e)
      with ⟨out, hstate, err⟩
    cases err
    · exact publishEvent_sequencer_mono pcfg rs.pub out
    · exact le_refl _
  · rw [if_neg hc]
    exact publishEvent_sequencer_mono pcfg rs.pub (stamp rs.pub.sequencer e)

theorem consumeRun_sequencer_mono (pcfg : PublishCfg) (hcfg : HandleCfg) :
    ∀ (es : List Kevent) (rs : RunState),
    rs.pub.sequencer ≤ (consumeRun pcfg hcfg rs es).pub.sequencer := by
  intro es
  induction es with
  | nil => exact fun rs => le_refl _
  | cons e rest ih =>
    intro rs
    exact le_trans (consumeOne_sequencer_mono pcfg hcfg rs e)
      (ih (consumeOne pcfg hcfg rs e))

/-- The run invariant behind C2, for streams that never exercise the
    handle processor: delivered sequence numbers are bounded by the
    sequencer (strictly for non-state events), are pairwise
    non-decreasing, and are pairwise strictly increasing on the non-state
    subsequence. -/
theorem consumeRun_inv (pcfg : PublishCfg) (hcfg : HandleCfg) :
    ∀ (es : List Kevent) (rs : RunState),
    (∀ e ∈ es, e.category ≠ Category.Handle) →
    (∀ d ∈ rs.pub.delivered, d.seq ≤ rs.pub.sequencer ∧
      (d.stateFlag = false → d.seq < rs.pub.sequencer)) →
    List.Pairwise (fun a b : Kevent => a.seq ≤ b.seq) rs.pub.delivered →
    List.Pairwise (fun a b : Kevent => a.seq < b.seq)
      (rs.pub.delivered.filter (fun d => !d.stateFlag)) →
    (∀ d ∈ (consumeRun pcfg hcfg rs es).pub.delivered,
        d.seq ≤ (consumeRun pcfg hcfg rs es).pub.sequencer ∧
        (d.stateFlag = false →
          d.seq < (consumeRun pcfg hcfg rs es).pub.sequencer)) ∧
    List.Pairwise (fun a b : Kevent => a.seq ≤ b.seq)
      (consumeRun pcfg hcfg rs es).pub.delivered ∧
    List.Pairwise (fun a b : Kevent => a.seq < b.seq)
      ((consumeRun pcfg hcfg rs es).pub.delivered.filter
        (fun d => !d.stateFlag)) := by
  intro es
  induction es with
  | nil => exact fun rs _ h1 h2 h3 => ⟨h1, h2, h3⟩
  | cons e rest ih =>
    intro rs hall h1 h2 h3
    have hcat := hall e (List.mem_cons_self e rest)
    have hrest := fun q hq => hall q (List.mem_cons_of_mem e hq)
    have hstep : consumeRun pcfg hcfg rs (e :: rest) =
        consumeRun pcfg hcfg (consumeOne pcfg hcfg rs e) rest := rfl
    rw [hstep]
    set x := stamp rs.pub.sequencer e with hx
    have hxseq : x.seq = rs.pub.sequencer := rfl
    have hcat' : ¬ (stamp rs.pub.sequencer e).category = Category.Handle :=
      hcat
    have hone : (consumeOne pcfg hcfg rs e).pub =
        publishEvent pcfg rs.pub x := by
      simp only [consumeOne]
      rw [if_neg hcat']
    rcases publishEvent_spec pcfg rs.pub x with ⟨hdel, hseqn⟩ | ⟨hdel, hseqn⟩
    · exact ih (consumeOne pcfg hcfg rs e) hrest
        (by rw [hone, hdel, hseqn]; exact h1)
        (by rw [hone, hdel]; exact h2)
        (by rw [hone, hdel]; exact h3)
    · have hdseq : (attachPS pcfg x).seq = rs.pub.sequencer := by
        rw [attachPS_seq]
        exact hxseq
      have hdsf : (attachPS pcfg x).stateFlag = x.stateFlag :=
        attachPS_stateFlag pcfg x
      have hmono : rs.pub.sequencer ≤ (consumeOne pcfg hcfg rs e).pub.sequencer := by
        rw [hone, hseqn]
        cases x.stateFlag <;> simp
      refine ih (consumeOne pcfg hcfg rs e) hrest ?_ ?_ ?_
      · intro d hd
        rw [hone, hdel] at hd
        rcases List.mem_append.mp hd with hold | hnew
        · obtain ⟨ha, hb⟩ := h1 d hold
          refine ⟨le_trans ha hmono, fun hns => lt_of_lt_of_le (hb hns) hmono⟩
        · have hdeq : d = attachPS pcfg x := List.mem_singleton.mp hnew
          subst hdeq
          constructor
          · rw [hdseq]
            exact hmono
          · intro hns
            rw [hdsf] at hns
            rw [hone, hseqn, hns, hdseq]
            simp
      · rw [hone, hdel]
        rw [List.pairwise_append]
        refine ⟨h2, List.pairwise_singleton _ _, ?_⟩
        intro a ha b hb
        have hbe : b = attachPS pcfg x := List.mem_singleton.mp hb
        subst hbe
        rw [hdseq]
        exact (h1 a ha).1
      · rw [hone, hdel, List.filter_append]
        rw [List.pairwise_append]
        refine ⟨h3, ?_, ?_⟩
        · rw [List.filter_singleton]
          cases (!(attachPS pcfg x).stateFlag) <;> simp
        · intro a ha b hb
          have hbmem : b ∈ [attachPS pcfg x] := List.mem_of_mem_filter hb
          have hbns : b.stateFlag = false := by
            have := List.of_mem_filter hb
            simpa using this
          have hbe : b = attachPS pcfg x := List.mem_singleton.mp hbmem
          subst hbe
          have hans : a.stateFlag = false := by
            have := List.of_mem_filter ha
            simpa using this
          have hamem : a ∈ rs.pub.delivered := List.mem_of_mem_filter ha
          rw [hdseq]
          exact (h1 a hamem).2 hans

/-- C2 (amended): the sequencer is read at decode time and incremented
    only when a non-state event is published, so it never decreases over
    a run; delivered sequence numbers are non-decreasing — and strictly
    increasing across non-state events — only for streams that never
    exercise the handle processor's pending table (no handle-category
    events): a withheld `CreateHandle` released by a later `CloseHandle`
    is re-published with its original decode-time sequence number, which
    may be smaller than sequence numbers already delivered, and state
    events published in capture mode may share a sequence number with an
    adjacent published event. -/
theorem C2_sequencer_monotone_and_chainless_order (pcfg : PublishCfg)
    (hcfg : HandleCfg) (n : Nat) (h0 : HandleProcState)
    (es : List Kevent) :
    n ≤ (consumeRun pcfg hcfg ⟨initState n, h0⟩ es).pub.sequencer ∧
    ((∀ e ∈ es, e.category ≠ Category.Handle) →
      List.Pairwise (fun a b : Kevent => a.seq ≤ b.seq)
        (consumeRun pcfg hcfg ⟨initState n, h0⟩ es).pub.delivered ∧
      List.Pairwise (fun a b : Kevent => a.seq < b.seq)
        ((consumeRun pcfg hcfg ⟨initState n, h0⟩ es).pub.delivered.filter
          (fun d => !d.stateFlag))) := by
  constructor
  · exact consumeRun_sequencer_mono pcfg hcfg es ⟨initState n, h0⟩
  · intro hnh
    have h := consumeRun_inv pcfg hcfg es ⟨initState n, h0⟩ hnh
      (by intro d hd; cases hd) List.Pairwise.nil List.Pairwise.nil
    exact ⟨h.2.1, h.2.2⟩

/-- Witness for C2 (amended): a chain-free stream of a state event and an
    ordinary event keeps the sequencer at or above its start and delivers
    in non-decreasing (strict on non-state) order. -/
theorem C2_sequencer_monotone_and_chainless_order_witness :
    (0 : Nat) ≤ (consumeRun captureCfg pairCfg ⟨initState 0, runH0⟩
      [stateEvent, defaultKevent]).pub.sequencer ∧
    List.Pairwise (fun a b : Kevent => a.seq ≤ b.seq)
      (consumeRun captureCfg pairCfg ⟨initState 0, runH0⟩
        [stateEvent, defaultKevent]).pub.delivered ∧
    List.Pairwise (fun a b : Kevent => a.seq < b.seq)
      ((consumeRun captureCfg pairCfg ⟨initState 0, runH0⟩
        [stateEvent, defaultKevent]).pub.delivered.filter
          (fun d => !d.stateFlag)) := by
  have h := C2_sequencer_monotone_and_chainless_order captureCfg pairCfg 0
    runH0 [stateEvent, defaultKevent]
  have h2 := h.2 (by decide)
  exact ⟨h.1, h2.1, h2.2⟩

/-! ## Parameter-map lemmas (string keys) -/

theorem lookup_filter_ne_str {α : Type} (k0 k : String) :
    ∀ l : List (String × α),
    List.lookup k (List.filter (fun p => p.1 ≠ k0) l) =
      if k = k0 then none else List.lookup k l := by
  intro l
  induction l with
  | nil => simp
  | cons a t ih =>
    simp only [ne_eq, decide_not] at ih ⊢
    rcases a with ⟨ka, va⟩
    by_cases hka : ka = k0
    · subst hka
      by_cases hk : k = ka
      · subst hk; simp [List.lookup, ih]
      · have hb : (k == ka) = false := by simpa using hk
        simp [List.lookup, hb, ih, hk]
    · by_cases hk : k = ka
      · subst hk
        simp [List.lookup, hka, ih]
      · have hb : (k == ka) = false := by simpa using hk
        simp [List.lookup, hka, hb, ih]

theorem kfind_append_self (ps : Kparams) (k : String) (v : Kval) :
    (ps.append k v).find k = some v := by
  simp [Kparams.append, Kparams.find, List.lookup]

theorem kfind_append_ne (ps : Kparams) (k k' : String) (v : Kval)
    (h : k ≠ k') : (ps.append k' v).find k = ps.find k := by
  have hb : (k == k') = false := by simpa using h
  simp only [Kparams.append, Kparams.find, List.lookup, hb]
  rw [lookup_filter_ne_str k' k ps]
  simp [h]

theorem kfind_remove_ne (ps : Kparams) (k k' : String) (h : k ≠ k') :
    (ps.remove k').find k = ps.find k := by
  simp only [Kparams.remove, Kparams.find]
  rw [lookup_filter_ne_str k' k ps]
  simp [h]

theorem kgetParamAsString_append_ne (ps : Kparams) (k k' : String)
    (v : Kval) (h : k ≠ k') :
    (ps.append k' v).getParamAsString k = ps.getParamAsString k := by
  unfold Kparams.getParamAsString
  rw [kfind_append_ne ps k k' v h]

/-! ## Name-canonicalization shape (C3 support) -/

theorem driverFold_shape (dn : String) :
    ∀ (l : List String) (ev : Kevent),
    ∃ ps', l.foldl (fun ev drv =>
        if equalFold (pathBase drv) dn then
          { ev with kparams := ev.kparams.append "image_filename" (.path drv) }
        else ev) ev = { ev with kparams := ps' } ∧
      ∀ k, k ≠ "image_filename" → ps'.find k = ev.kparams.find k := by
  intro l
  induction l with
  | nil => exact fun ev => ⟨ev.kparams, rfl, fun _ _ => rfl⟩
  | cons d rest ih =>
    intro ev
    by_cases hd : equalFold (pathBase d) dn = true
    · obtain ⟨ps', hfold, hfind⟩ :=
        ih { ev with kparams := ev.kparams.append "image_filename" (.path d) }
      refine ⟨ps', ?_, ?_⟩
      · simp only [List.foldl_cons, hd, if_true]
        exact hfold
      · intro k hk
        rw [hfind k hk]
        exact kfind_append_ne ev.kparams k "image_filename" (.path d) hk
    · obtain ⟨ps', hfold, hfind⟩ := ih ev
      refine ⟨ps', ?_, hfind⟩
      simp only [List.foldl_cons, hd]
      simpa using hfold

theorem resolveObjectName_shape (cfg : HandleCfg) (tn name : String)
    (e : Kevent) :
    ∃ ps', (resolveObjectName cfg tn name e).2 = { e with kparams := ps' } ∧
      ∀ k, k ≠ "image_filename" → ps'.find k = e.kparams.find k := by
  unfold resolveObjectName
  by_cases h1 : tn = "Key"
  · rw [if_pos h1]
    cases hfk : cfg.formatKey name with
    | mk root keyName =>
      cases root <;> exact ⟨e.kparams, rfl, fun _ _ => rfl⟩
  · rw [if_neg h1]
    by_cases h2 : tn = "File"
    · rw [if_pos h2]
      exact ⟨e.kparams, rfl, fun _ _ => rfl⟩
    · rw [if_neg h2]
      by_cases h3 : tn = "Driver"
      · rw [if_pos h3]
        obtain ⟨ps', hfold, hfind⟩ := driverFold_shape
          ((if name.startsWith "\\Driver\\" then name.drop 8 else name) ++ ".sys")
          cfg.drivers e
        exact ⟨ps', hfold, hfind⟩
      · rw [if_neg h3]
        exact ⟨e.kparams, rfl, fun _ _ => rfl⟩

/-! ## Deferred CreateHandle pairing (C3) -/

/-- C3: when a `CloseHandle` arrives whose object pointer matches a
    pending `CreateHandle` stored with an empty name, the processor
    returns exactly one event downstream — the held `CreateHandle`, its
    object name overwritten with the CloseHandle's resolved name and an
    `ImageFilename` parameter copied when the type is Driver; the pending
    entry is removed (all other entries untouched), the `CloseHandle`
    itself is not forwarded, no error is reported (so the chain forwards
    the Create), and `handle.deferred.matches` grows by exactly one.
    Hypotheses: the three handle parameters are present, the type store
    resolves the type id, the raw name parameter is a string, the name
    canonicalization yields `(nm, e2)`, the pending table holds the
    Create, and the handle snapshotter accepts writes and removals. -/
theorem C3_close_releases_pending_create (cfg : HandleCfg)
    (st : HandleProcState) (e held e2 : Kevent) (obj hid tid : Nat)
    (tn rawName nm : String)
    (hct : e.etype = Ktype.CloseHandle)
    (hhid : e.kparams.getUint32 "handle_id" = Except.ok hid)
    (htid : e.kparams.getUint16 "type_id" = Except.ok tid)
    (hobj : e.kparams.getUint64 "object" = Except.ok obj)
    (htn : List.lookup (tid % 256) st.typeStore = some tn)
    (htn0 : tn ≠ "")
    (hraw : e.kparams.find "handle_name" = some (Kval.str rawName))
    (hres : resolveObjectName cfg tn rawName
      { e with kparams :=
        (e.kparams.append "type_name" (Kval.str tn)).remove "type_id" } =
      (nm, e2))
    (hpend : lookupObj st.objects obj = some held)
    (hheldty : held.etype = Ktype.CreateHandle)
    (hheldnm : (held.kparams.find "handle_name").isSome = true)
    (hwok : ∀ ev, cfg.hsnapWrite ev = none)
    (hrok : ∀ ev, cfg.hsnapRemove ev = none) :
    ∃ out st',
      handleProcessEvent cfg st e = (out, st', none) ∧
      out.etype = Ktype.CreateHandle ∧
      out.seq = held.seq ∧
      out.pid = held.pid ∧
      out.kparams.getString "handle_name" = Except.ok nm ∧
      lookupObj st'.objects obj = none ∧
      (∀ o, o ≠ obj → lookupObj st'.objects o = lookupObj st.objects o) ∧
      st'.deferMatches = st.deferMatches + 1 ∧
      st'.typeStore = st.typeStore ∧
      (tn = "Driver" → out.kparams.find "image_filename" =
        some (Kval.path (e2.kparams.getParamAsString "image_filename"))) ∧
      (tn ≠ "Driver" → out =
        { held with kparams :=
            held.kparams.append "handle_name" (Kval.str nm) }) := by
  obtain ⟨hv, hfindheld⟩ := Option.isSome_iff_exists.mp hheldnm
  obtain ⟨ps2, hshape, hfind2⟩ := resolveObjectName_shape cfg tn rawName
    { e with kparams :=
      (e.kparams.append "type_name" (Kval.str tn)).remove "type_id" }
  have he2 : e2 = { e with kparams := ps2 } := by
    have := hshape
    rw [hres] at this
    exact this
  have hfind1 : ((e.kparams.append "type_name" (Kval.str tn)).remove
      "type_id").find "handle_name" = some (Kval.str rawName) := by
    rw [kfind_remove_ne _ _ _ (by decide),
      kfind_append_ne _ _ _ _ (by decide), hraw]
  have hg : Kparams.getString ((e.kparams.append "type_name"
      (Kval.str tn)).remove "type_id") "handle_name" =
      Except.ok rawName := by
    unfold Kparams.getString
    rw [hfind1]
  have hf2 : e2.kparams.find "handle_name" = some (Kval.str rawName) := by
    rw [he2]
    show ps2.find "handle_name" = _
    rw [hfind2 "handle_name" (by decide)]
    exact hfind1
  have hsv2 : e2.kparams.setValue "handle_name" (Kval.str nm) =
      Except.ok (e2.kparams.append "handle_name" (Kval.str nm)) := by
    unfold Kparams.setValue
    rw [hf2]
  have hsvheld : held.kparams.setValue "handle_name" (Kval.str nm) =
      Except.ok (held.kparams.append "handle_name" (Kval.str nm)) := by
    unfold Kparams.setValue
    rw [hfindheld]
  have he2ty : e2.etype = Ktype.CloseHandle := by
    rw [he2]
    exact hct
  have hmain : handleProcessEvent cfg st e =
      ((if tn = "Driver" then
          setKparams held
            ((held.kparams.append "handle_name" (Kval.str nm)).append
              "image_filename"
              (Kval.path ((e2.kparams.append "handle_name"
                (Kval.str nm)).getParamAsString "image_filename")))
        else
          setKparams held (held.kparams.append "handle_name" (Kval.str nm))),
       { st with objects := eraseObj st.objects obj,
                 deferMatches := st.deferMatches + 1 },
       none) := by
    simp only [handleProcessEvent, hhid, htid, hobj, htn, Option.getD_some,
      if_neg htn0, hg, hres, hsv2, hsvheld, hwok, hrok, hpend, he2ty]
    rfl
  refine ⟨_, _, hmain, ?_, ?_, ?_, ?_, ?_, ?_, rfl, rfl, ?_, ?_⟩
  · by_cases hD : tn = "Driver" <;> simp [hD, setKparams, hheldty]
  · by_cases hD : tn = "Driver" <;> simp [hD, setKparams]
  · by_cases hD : tn = "Driver" <;> simp [hD, setKparams]
  · have hne : ("handle_name" : String) ≠ "image_filename" := by decide
    by_cases hD : tn = "Driver"
    · rw [if_pos hD]
      simp only [setKparams]
      unfold Kparams.getString
      rw [kfind_append_ne _ _ _ _ hne, kfind_append_self]
    · rw [if_neg hD]
      simp only [setKparams]
      unfold Kparams.getString
      rw [kfind_append_self]
  · show List.lookup obj (eraseObj st.objects obj) = none
    unfold eraseObj
    rw [lookup_filter_ne obj obj st.objects]
    simp
  · intro o ho
    show List.lookup o (eraseObj st.objects obj) = _
    unfold eraseObj
    rw [lookup_filter_ne obj o st.objects, if_neg ho]
    rfl
  · intro hD
    have hne2 : ("image_filename" : String) ≠ "handle_name" := by decide
    rw [if_pos hD]
    simp only [setKparams]
    rw [kfind_append_self,
      kgetParamAsString_append_ne _ _ _ _ hne2]
  · intro hD
    rw [if_neg hD]
    rfl

/-- Witness for C3: the registry scenario — a pending `CreateHandle` on
    object 0xABC (2748) with an empty name is released by the matching
    `CloseHandle` carrying `\REGISTRY\MACHINE\SOFTWARE\X`; the returned
    event is the Create with the name filled in, the pending slot is
    drained and the deferred-match counter reads one. -/
theorem C3_close_releases_pending_create_witness :
    ∃ out st',
      handleProcessEvent pairCfg pendingState closeEvent = (out, st', none) ∧
      out.etype = Ktype.CreateHandle ∧
      out.kparams.getString "handle_name" =
        Except.ok "\\REGISTRY\\MACHINE\\SOFTWARE\\X" ∧
      lookupObj st'.objects 2748 = none ∧
      st'.deferMatches = 1 := by
  obtain ⟨out, st', h1, h2, _, _, h5, h6, _, h8, _, _, _⟩ :=
    C3_close_releases_pending_create pairCfg pendingState closeEvent
      pendingCreate
      (setKparams closeEvent
        ((closeEvent.kparams.append "type_name" (Kval.str "Key")).remove
          "type_id"))
      2748 44 5 "Key" "\\REGISTRY\\MACHINE\\SOFTWARE\\X"
      "\\REGISTRY\\MACHINE\\SOFTWARE\\X"
      rfl (by decide) (by decide) (by decide) (by decide) (by decide)
      (by decide) rfl (by decide) rfl (by decide)
      (fun _ => rfl) (fun _ => rfl)
  exact ⟨out, st', h1, h2, h5, h6, by rw [h8]; rfl⟩

/-! ## Resolver timeout recovery (C8) -/

/-- C8: when the worker thread does not signal the done event within the
    timeout, `GetHandleWithTimeout` returns the empty string with the
    timeout error, increments the `handle.wait.timeouts` counter,
    forcibly terminates the worker, joins it, closes its thread handle
    (in that order) and clears the thread slot; because the slot is
    cleared, the next invocation (whose event resets and thread creation
    succeed) spawns a fresh worker thread. -/
theorem C8_timeout_replaces_worker (os : ResolverOs) (st : ResolverState)
    (handle t : Nat) (ht : st.thread = t) (ht0 : t ≠ 0)
    (hinit : os.setInitOk = true)
    (hwait : os.waitDone = WaitOutcome.timedOut)
    (hterm : os.terminateOk = true) (hjoin : os.joinOk = true) :
    (getHandleWithTimeout os st handle).name = "" ∧
    (getHandleWithTimeout os st handle).err =
      some "couldn't resolve handle name due to timeout" ∧
    (getHandleWithTimeout os st handle).state.waitTimeouts =
      st.waitTimeouts + 1 ∧
    (getHandleWithTimeout os st handle).state.thread = 0 ∧
    (getHandleWithTimeout os st handle).trace =
      [OsAction.storeHandle handle, OsAction.setInit, OsAction.waitDone,
       OsAction.terminateThread t, OsAction.joinThread t,
       OsAction.closeThreadHandle t] ∧
    (∀ (os' : ResolverOs) (h' : Nat), os'.resetIniOk = true →
      os'.resetDoneOk = true → os'.createThread ≠ 0 →
      OsAction.createThread os'.createThread ∈
        (getHandleWithTimeout os'
          (getHandleWithTimeout os st handle).state h').trace) := by
  have hmain : getHandleWithTimeout os st handle =
      ⟨"", some "couldn't resolve handle name due to timeout",
       { thread := 0, waitTimeouts := st.waitTimeouts + 1 },
       [OsAction.storeHandle handle, OsAction.setInit, OsAction.waitDone,
        OsAction.terminateThread t, OsAction.joinThread t,
        OsAction.closeThreadHandle t]⟩ := by
    simp only [getHandleWithTimeout, ht, hinit, hwait, hterm, hjoin]
    simp [ht0, ht]
  refine ⟨by rw [hmain], by rw [hmain], by rw [hmain], by rw [hmain],
    by rw [hmain], ?_⟩
  intro os' h' hri hrd hct
  rw [hmain]
  have hct' : ¬ os'.createThread = 0 := hct
  simp only [getHandleWithTimeout, hri, hrd]
  cases hsi : os'.setInitOk <;> cases hwd : os'.waitDone <;>
    cases hto : os'.terminateOk <;> cases hjo : os'.joinOk <;>
      simp [hsi, hwd, hto, hjo, hct']

/-- Witness for C8: a hung worker (thread slot 1) times out; the call
    reports the timeout, replaces nothing but the thread slot, and a
    following call with a healthy OS creates worker thread 2. -/
theorem C8_timeout_replaces_worker_witness :
    (getHandleWithTimeout hungOs ⟨1, 0⟩ 99).err =
      some "couldn't resolve handle name due to timeout" ∧
    (getHandleWithTimeout hungOs ⟨1, 0⟩ 99).state = ⟨0, 1⟩ ∧
    OsAction.createThread 2 ∈
      (getHandleWithTimeout freshOs
        (getHandleWithTimeout hungOs ⟨1, 0⟩ 99).state 99).trace := by
  obtain ⟨_, h2, h3, h4, _, h6⟩ := C8_timeout_replaces_worker
    hungOs ⟨1, 0⟩ 99 1 rfl (by decide) rfl rfl rfl rfl
  refine ⟨h2, ?_, ?_⟩
  · rcases hst : (getHandleWithTimeout hungOs ⟨1, 0⟩ 99).state with ⟨a, b⟩
    rw [hst] at h3 h4
    simp only at h3 h4
    rw [h3, h4]
  · exact h6 freshOs 99 rfl rfl (by decide)

end Fibratus
